import Mathlib

/-!
Verification of the cfgmenu configuration/menu core (`cfg::config_item` in
`src/cfgmenu/config.h` and `ui::menu_option` / `ui::menu` in `menu.h`).

The C++ code is shallowly embedded: the `std::variant<bool, uint8, int, double>`
value becomes the inductive `value_t`; `double` is carried as an exact rational
together with explicit infinity/NaN constructors (floating-point rounding is
abstracted away: no theorem below depends on a rounded double value);
machine integers are `Nat`/`Int` with explicit range checks and `% 2^w` wraps;
`std::from_chars` is modelled from its standard grammar (no leading whitespace,
no '+' on the number, minus sign only for signed types, longest valid prefix,
value left untouched on failure); fallible accessors return `Except`.
-/

/-- Carrier for the C++ `double` alternative.  Finite values are exact
rationals (FP rounding abstracted), plus signed infinity and NaN as produced
by `std::from_chars` on "inf"/"nan" inputs. -/
inductive double_t
  | finite (q : Rat)
  | inf (neg : Bool)
  | nan
deriving DecidableEq

/-- The stored alternative of `std::variant<bool, uint8, int, double>` in
`cfg::cfgitem = cfg::config_item<bool, uint8, int, double>`. -/
inductive value_t
  | vbool (b : Bool)
  | vu8 (n : Nat)
  | vint (v : Int)
  | vdouble (d : double_t)
deriving DecidableEq

/-- The four declared value kinds of `cfg::cfgitem` (the template argument list
`<bool, uint8, int, double>`). -/
inductive vkind
  | kbool
  | ku8
  | kint
  | kdouble
deriving DecidableEq

/-- Lean carrier type of each declared kind. -/
def carrier : vkind → Type
  | .kbool => Bool
  | .ku8 => Nat
  | .kint => Int
  | .kdouble => double_t

/-- The active alternative's kind (which alternative of the variant holds). -/
def value_t.kind : value_t → vkind
  | .vbool _ => .kbool
  | .vu8 _ => .ku8
  | .vint _ => .kint
  | .vdouble _ => .kdouble

/-- Builds the variant holding alternative `k` with payload `v`. -/
def value_t.inj : (k : vkind) → carrier k → value_t
  | .kbool, b => .vbool b
  | .ku8, n => .vu8 n
  | .kint, v => .vint v
  | .kdouble, d => .vdouble d

/-! ### Characters and digits -/

/-- ASCII decimal digit test (as used by the `std::from_chars` grammar). -/
def is_digit (c : Char) : Bool := 48 ≤ c.toNat && c.toNat ≤ 57

/-- Digit value of an ASCII digit character. -/
def char_digit (c : Char) : Nat := c.toNat - 48

/-- ASCII character of a decimal digit (the digit table used by the
formatting routines behind `std::format("{}", n)`). -/
def digit_char (d : Nat) : Char :=
  match d with
  | 0 => '0' | 1 => '1' | 2 => '2' | 3 => '3' | 4 => '4'
  | 5 => '5' | 6 => '6' | 7 => '7' | 8 => '8' | _ => '9'

/-- ASCII lower-casing of one character (`std::from_chars` matches the
"inf"/"nan" spellings case-insensitively). -/
def lower (c : Char) : Char :=
  if 65 ≤ c.toNat && c.toNat ≤ 90 then Char.ofNat (c.toNat + 32) else c

/-- Consumes the longest leading run of decimal digits, returning their values
(most significant first) and the remaining characters. -/
def take_digits : List Char → List Nat × List Char
  | [] => ([], [])
  | c :: cs =>
    if is_digit c then
      let p := take_digits cs
      (char_digit c :: p.1, p.2)
    else ([], c :: cs)

/-- Value of a most-significant-first digit list (the accumulation performed
by `std::from_chars`). -/
def digits_val (ds : List Nat) : Nat := ds.foldl (fun a d => 10 * a + d) 0

/-- Little-endian decimal digits of `n` (empty for 0), with explicit fuel so
the recursion is structural; `fuel ≥ n` is always sufficient. -/
def nat_digits_rev : Nat → Nat → List Nat
  | 0, _ => []
  | fuel + 1, n => if n == 0 then [] else n % 10 :: nat_digits_rev fuel (n / 10)

/-- Most-significant-first decimal digits of `n`, `[0]` for 0. -/
def nat_digits (n : Nat) : List Nat :=
  if n == 0 then [0] else (nat_digits_rev n n).reverse

/-- Decimal formatting of a natural number, as produced by
`std::format("{}", n)` for an unsigned integer alternative. -/
def nat_chars (n : Nat) : List Char := (nat_digits n).map digit_char

/-- Decimal formatting of an `int`, as produced by `std::format("{}", v)`:
a minus sign for negative values followed by the decimal magnitude. -/
def int_chars (v : Int) : List Char :=
  if v < 0 then '-' :: nat_chars v.natAbs else nat_chars v.natAbs

/-! ### `std::from_chars` -/

/-- `std::from_chars` into `uint8`: longest leading digit run; no digits means
`errc::invalid_argument`, a value above 255 means `errc::result_out_of_range`;
in both error cases the referenced value is left untouched, which the callers
below model by `none`. -/
def from_chars_u8 (cs : List Char) : Option Nat :=
  match take_digits cs with
  | ([], _) => none
  | (ds, _) => if digits_val ds ≤ 255 then some (digits_val ds) else none

/-- `std::from_chars` into `int` (32-bit): an optional leading minus sign
(never a plus), then the longest digit run; no digits or a value outside
`[-2^31, 2^31 - 1]` is an error and leaves the value untouched (`none`). -/
def from_chars_int (cs : List Char) : Option Int :=
  match cs with
  | '-' :: rest =>
    match take_digits rest with
    | ([], _) => none
    | (ds, _) =>
      if digits_val ds ≤ 2 ^ 31 then some (-(digits_val ds : Int)) else none
  | _ =>
    match take_digits cs with
    | ([], _) => none
    | (ds, _) =>
      if digits_val ds ≤ 2 ^ 31 - 1 then some ((digits_val ds : Int)) else none

/-- Exponent part after the `e`/`E` of the `std::from_chars` floating-point
grammar: an optional sign then at least one digit. -/
def exp_val (cs : List Char) : Option Int :=
  match cs with
  | '-' :: t =>
    match take_digits t with
    | ([], _) => none
    | (ds, _) => some (-(digits_val ds : Int))
  | '+' :: t =>
    match take_digits t with
    | ([], _) => none
    | (ds, _) => some ((digits_val ds : Int))
  | t =>
    match take_digits t with
    | ([], _) => none
    | (ds, _) => some ((digits_val ds : Int))

/-- Applies a well-formed trailing exponent part to the mantissa value; a
malformed exponent is simply not consumed and the mantissa value stands. -/
def with_exp (cs : List Char) (m : Rat) : Rat :=
  match cs with
  | 'e' :: t => match exp_val t with | some e => m * (10 : Rat) ^ e | none => m
  | 'E' :: t => match exp_val t with | some e => m * (10 : Rat) ^ e | none => m
  | _ => m

/-- Fractional part of the mantissa: a '.' followed by a (possibly empty)
digit run; anything else contributes nothing and is left unconsumed. -/
def frac_digits : List Char → List Nat × List Char
  | '.' :: t => take_digits t
  | cs => ([], cs)

/-- Unsigned finite part of the `std::from_chars` `chars_format::general`
grammar: `digit+ ('.' digit*)? | '.' digit+`, then an optional exponent.
The numeric value is computed exactly as a rational (FP rounding and the
huge-exponent `result_out_of_range` case are abstracted; no claim below
depends on a successfully parsed double value). -/
def parse_udouble (cs : List Char) : Option Rat :=
  match take_digits cs with
  | (ip, rest) =>
    match frac_digits rest with
    | (fp, rest2) =>
      if ip.isEmpty && fp.isEmpty then none
      else some (with_exp rest2 ((digits_val (ip ++ fp) : Rat) / (10 : Rat) ^ fp.length))

/-- Case-insensitive "inf" start (the `std::from_chars` infinity spelling). -/
def inf_start (cs : List Char) : Bool :=
  match cs with
  | a :: b :: c :: _ => lower a == 'i' && lower b == 'n' && lower c == 'f'
  | _ => false

/-- Case-insensitive "nan" start (the `std::from_chars` NaN spelling). -/
def nan_start (cs : List Char) : Bool :=
  match cs with
  | a :: b :: c :: _ => lower a == 'n' && lower b == 'a' && lower c == 'n'
  | _ => false

/-- Optional leading minus sign of the `std::from_chars` floating-point
grammar (a plus sign is not part of the grammar). -/
def strip_minus : List Char → Bool × List Char
  | '-' :: t => (true, t)
  | cs => (false, cs)

/-- `std::from_chars` into `double` (`chars_format::general`): optional minus
sign, then infinity, NaN, or a finite decimal mantissa with optional exponent.
`none` models the `errc::invalid_argument` case, which leaves the referenced
value untouched. -/
def parse_double (cs : List Char) : Option double_t :=
  match strip_minus cs with
  | (neg, cs1) =>
    if inf_start cs1 then some (.inf neg)
    else if nan_start cs1 then some .nan
    else match parse_udouble cs1 with
      | some q => some (.finite (if neg then -q else q))
      | none => none

/-! ### `cfg::config_item` -/

/-- `cfg::config_item<bool, uint8, int, double>` (`cfg::cfgitem`): a named
setting holding one active alternative of the declared kinds. -/
structure config_item where
  name : String
  value : value_t
deriving DecidableEq

/-- Error raised by `std::get` on a `std::variant` holding a different
alternative (`std::bad_variant_access`), i.e. the TypeMismatch condition. -/
inductive access_error
  | bad_variant_access
deriving DecidableEq

/-- `config_item::to<Value>()` for a declared kind (`cc::same_as_any`
overload): `std::get<Value>(value_)`, which returns the stored value when
`Value` is the active alternative and throws `std::bad_variant_access`
otherwise (modelled as `Except.error`). -/
def config_item.to_typed (k : vkind) (s : config_item) : Except access_error (carrier k) :=
  match k, s.value with
  | .kbool, .vbool b => .ok b
  | .ku8, .vu8 n => .ok n
  | .kint, .vint v => .ok v
  | .kdouble, .vdouble d => .ok d
  | _, _ => .error .bad_variant_access

/-- `config_item::to<std::string>()`: `std::format("{}", value)` on the
active alternative.  Booleans print as "true"/"false", integers in decimal.
The `double` branch is a stand-in (the shortest-round-trip decimal formatting
of an IEEE double is not representable over exact rationals); no theorem
below evaluates it. -/
def config_item.to_string (s : config_item) : String :=
  match s.value with
  | .vbool b => if b then "true" else "false"
  | .vu8 n => ⟨nat_chars n⟩
  | .vint v => ⟨int_chars v⟩
  | .vdouble d =>
    match d with
    | .finite q => ⟨int_chars q.num ++ '/' :: nat_chars q.den⟩
    | .inf neg => if neg then "-inf" else "inf"
    | .nan => "nan"

/-- `config_item::set(std::string_view)`: parses the text into the currently
active alternative without changing which alternative is active.  The boolean
alternative becomes `value == "1" or value == "true"`; the numeric
alternatives go through `std::from_chars`, which leaves the stored value
untouched when parsing fails.  The member is `noexcept` and returns `void`:
there is no error channel, so the function is total on `config_item`. -/
def config_item.set_text (text : String) (s : config_item) : config_item :=
  { s with
    value :=
      match s.value with
      | .vbool _ => .vbool (text == "1" || text == "true")
      | .vu8 n =>
        match from_chars_u8 text.data with
        | some v => .vu8 v
        | none => .vu8 n
      | .vint n =>
        match from_chars_int text.data with
        | some v => .vint v
        | none => .vint n
      | .vdouble d =>
        match parse_double text.data with
        | some v => .vdouble v
        | none => .vdouble d }

/-- `config_item::set(value)` for an arithmetic value (`cc::convertible_to_any`
overload): `value_ = value;`, replacing the active alternative.  The variant's
converting assignment selects the alternative matching the argument's type,
so the model takes the selected alternative directly. -/
def config_item.set_val (v : value_t) (s : config_item) : config_item :=
  { s with value := v }

/-- Argument of a `set` call as dispatched by overload resolution: either the
textual overload or the arithmetic-value overload. -/
inductive set_arg
  | text (t : String)
  | val (v : value_t)
deriving DecidableEq

/-- `config_item::set` overload dispatch on the argument. -/
def config_item.set (a : set_arg) (s : config_item) : config_item :=
  match a with
  | .text t => s.set_text t
  | .val v => s.set_val v

/-! ### `static_cast` semantics for `config_item::operator Value` -/

/-- Truncation toward zero, as `static_cast` from a floating value to an
integral type. -/
def rat_trunc (q : Rat) : Int := if q < 0 then q.ceil else q.floor

/-- Conversion of an integer to `uint8`: modular wrap (well defined for
integer-to-unsigned conversions). -/
def to_u8 (z : Int) : Nat := (z % 256).toNat

/-- Wrap of an integer into the 32-bit two's-complement range of `int`. -/
def to_int32 (z : Int) : Int := (z + 2 ^ 31) % 2 ^ 32 - 2 ^ 31

/-- `static_cast<carrier t>` from a `bool` alternative. -/
def cast_bool (t : vkind) (b : Bool) : carrier t :=
  match t with
  | .kbool => b
  | .ku8 => (if b then 1 else 0 : Nat)
  | .kint => (if b then 1 else 0 : Int)
  | .kdouble => .finite (if b then 1 else 0)

/-- `static_cast<carrier t>` from a `uint8` alternative. -/
def cast_u8 (t : vkind) (n : Nat) : carrier t :=
  match t with
  | .kbool => decide (n ≠ 0)
  | .ku8 => n
  | .kint => (n : Int)
  | .kdouble => .finite (n : Rat)

/-- `static_cast<carrier t>` from an `int` alternative. -/
def cast_int (t : vkind) (v : Int) : carrier t :=
  match t with
  | .kbool => decide (v ≠ 0)
  | .ku8 => to_u8 v
  | .kint => v
  | .kdouble => .finite (v : Rat)

/-- `static_cast<carrier t>` from a `double` alternative.  Casting a
non-finite double to an integral type is undefined behaviour in C++; the
model completes those cases with 0 (no claim depends on them). -/
def cast_double (t : vkind) (d : double_t) : carrier t :=
  match t with
  | .kbool =>
    match d with
    | .finite q => decide (q ≠ 0)
    | _ => true
  | .ku8 =>
    match d with
    | .finite q => to_u8 (rat_trunc q)
    | _ => (0 : Nat)
  | .kint =>
    match d with
    | .finite q => to_int32 (rat_trunc q)
    | _ => (0 : Int)
  | .kdouble => d

/-- `config_item::operator Value()` (the implicit, unchecked conversion):
`std::visit([](auto value) { return static_cast<Value>(value); }, value_)`.
The visit applies the per-alternative `static_cast` regardless of which
alternative is active; the function is total (the member is `noexcept`). -/
def config_item.operator_value (t : vkind) (s : config_item) : carrier t :=
  match s.value with
  | .vbool b => cast_bool t b
  | .vu8 n => cast_u8 t n
  | .vint v => cast_int t v
  | .vdouble d => cast_double t d

/-! ### Spec-side predicates -/

/-- Spec-side: the text begins with a valid finite-mantissa start
(`digit` or `'.' digit`). -/
def mant_start (cs : List Char) : Bool :=
  match cs with
  | '.' :: c :: _ => is_digit c
  | c :: _ => is_digit c
  | [] => false

/-- Spec-side: the text begins with a valid `double` numeric prefix per the
`std::from_chars` general grammar (optional minus, then a finite mantissa
start or a case-insensitive "inf"/"nan"). -/
def double_start (cs : List Char) : Bool :=
  match strip_minus cs with
  | (_, cs1) => mant_start cs1 || inf_start cs1 || nan_start cs1

/-- Spec-side formalisation of "the input has a valid numeric prefix" for
each numeric kind (the claim's hypothesis; `kbool` is never used). -/
def numeric_start (k : vkind) (cs : List Char) : Bool :=
  match k with
  | .kbool => true
  | .ku8 =>
    match cs with
    | c :: _ => is_digit c
    | [] => false
  | .kint =>
    match cs with
    | '-' :: c :: _ => is_digit c
    | c :: _ => is_digit c
    | [] => false
  | .kdouble => double_start cs

/-- Spec-side invariant on stored machine values: the `uint8` alternative
holds a byte and the `int` alternative a 32-bit value. -/
def wf_value : value_t → Prop
  | .vu8 n => n ≤ 255
  | .vint v => -(2 ^ 31) ≤ v ∧ v ≤ 2 ^ 31 - 1
  | _ => True

/-! ### `ui::menu_option` and `ui::menu`

The menu is generic over the action type; the model keys actions by an
abstract payload type `α`, with `Option α` playing the role of a
default-constructible action whose emptiness `not action_` can be tested
(absent by default).  The configuration item is referenced through a
non-owning pointer in the source; the model passes its state explicitly. -/

/-- `ui::menu_option<ConfigItem, Action>`: key, referenced configuration item
and optional action, in the source's member order. -/
structure menu_option (α : Type) where
  action : Option α
  cfgitem : config_item
  key : Nat
deriving DecidableEq

/-- Primitive effects performed by `menu_option::apply`, in program order:
the `set` call on the configuration item, then (possibly) the invocation of
the stored action.  `action_invoked` records the configuration-item state
visible to the callback at the moment it runs. -/
inductive apply_event (α : Type)
  | set_called (arg : set_arg)
  | action_invoked (a : α) (observed : config_item)

/-- `menu_option::apply(value)`: `cfgitem_->set(value); if (not action_)
return; std::invoke(action_);` — returns the updated option together with
the ordered trace of effects. -/
def menu_option.apply (v : set_arg) (o : menu_option α) :
    menu_option α × List (apply_event α) :=
  let item := o.cfgitem.set v
  match o.action with
  | none => ({ o with cfgitem := item }, [.set_called v])
  | some a => ({ o with cfgitem := item }, [.set_called v, .action_invoked a item])

/-- `menu_option::operator==`: menu options are equal when their keys match,
regardless of configuration item or action. -/
def menu_option.beq (x y : menu_option α) : Bool := x.key == y.key

instance : BEq (menu_option α) := ⟨menu_option.beq⟩

/-- State of `ui::menu`'s `selection_` iterator into the options vector:
a valid iterator to element `i`, the `end()` sentinel, or an iterator that
is not valid for reads (default-constructed/singular or invalidated by a
structural mutation) — the states the spec folds into `Unselected`. -/
inductive cursor_t
  | invalid
  | at_end
  | pos (i : Nat)
deriving DecidableEq

/-- `ui::menu<ConfigItem, Action>`: the options vector (with its capacity,
which drives iterator invalidation on growth) and the selection iterator. -/
structure menu (α : Type) where
  options : List (menu_option α)
  cap : Nat
  cursor : cursor_t
deriving DecidableEq

/-- A default-constructed menu: empty vector, capacity 0, and a
default-constructed (singular, not readable) selection iterator. -/
def menu.new : menu α := ⟨[], 0, .invalid⟩

/-- `menu::add(key, args...)`: `options_.emplace_back(key, args...)`.
Following `std::vector` iterator rules: when the new size exceeds the
capacity the storage is reallocated and every iterator (the selection
included) is invalidated; otherwise only a past-the-end iterator is
invalidated.  The capacity growth factor is implementation defined; the
model doubles it, which no theorem depends on. -/
def menu.add (key : Nat) (item : config_item) (act : Option α) (m : menu α) : menu α :=
  let grow := m.options.length == m.cap
  { options := m.options ++ [⟨act, item, key⟩]
    cap := if grow then max 1 (2 * m.cap) else m.cap
    cursor :=
      match m.cursor with
      | .pos i => if grow then .invalid else .pos i
      | .at_end => .invalid
      | .invalid => .invalid }

/-- `menu::remove()`: erases the option at the selection iterator.  The
source line reads `options_.erase(selection)` — naming the member function
`selection` instead of the iterator member `selection_`, which is ill-formed
when instantiated; the model follows the documented intent
(`options_.erase(selection_)`).   Erasing invalidates the iterators from the
erase point on, the selection iterator among them; calling `remove` without
a valid selection is a precondition violation (undefined behaviour), which
the model completes by only invalidating the cursor. -/
def menu.remove (m : menu α) : menu α :=
  match m.cursor with
  | .pos i => { m with options := m.options.eraseIdx i, cursor := .invalid }
  | _ => { m with cursor := .invalid }

/-- Index of the first option whose `key()` equals `key`
(`std::ranges::find_if` over the vector, as an index instead of an
iterator). -/
def find_idx (key : Nat) : List (menu_option α) → Option Nat
  | [] => none
  | o :: rest => if o.key == key then some 0 else (find_idx key rest).map (· + 1)

/-- `menu::select(key)`: `selection_ = std::ranges::find_if(options_, ...);
return selection_ != options_.end();` — the cursor moves to the first match,
or to the `end()` sentinel when there is none. -/
def menu.select (key : Nat) (m : menu α) : menu α × Bool :=
  match find_idx key m.options with
  | some i => ({ m with cursor := .pos i }, true)
  | none => ({ m with cursor := .at_end }, false)

/-- `menu::selection()`: the option at the selection iterator.  Reading it
without a valid selection is a precondition violation in the source
(dereferencing an invalid iterator); the model returns `none` there. -/
def menu.selection (m : menu α) : Option (menu_option α) :=
  match m.cursor with
  | .pos i => m.options[i]?
  | _ => none

/-- `menu::operator==` (`= default`): member-wise over `options_` (vector
equality: sizes, then element-wise `menu_option::operator==`) and
`selection_`.  Comparing iterators of two distinct vectors is not specified
in C++; the model compares the cursor states structurally, which is the only
reading under which the defaulted comparison is meaningful. -/
def menu.beq (x y : menu α) : Bool :=
  x.options == y.options && decide (x.cursor = y.cursor)

/-! ### Decimal printing/parsing lemmas -/

theorem foldr_nat_digits_rev :
    ∀ fuel n, n ≤ fuel →
      (nat_digits_rev fuel n).foldr (fun d a => 10 * a + d) 0 = n := by
  intro fuel
  induction fuel with
  | zero =>
    intro n h
    interval_cases n
    simp [nat_digits_rev]
  | succ f ih =>
    intro n h
    by_cases h0 : n = 0
    · subst h0; simp [nat_digits_rev]
    · have hb : (n == 0) = false := by simp [h0]
      have hdiv : n / 10 ≤ f := by omega
      simp only [nat_digits_rev, hb, Bool.false_eq_true, if_false, List.foldr_cons]
      rw [ih (n / 10) hdiv]
      omega

theorem nat_digits_rev_lt :
    ∀ fuel n d, d ∈ nat_digits_rev fuel n → d < 10 := by
  intro fuel
  induction fuel with
  | zero => intro n d hd; simp [nat_digits_rev] at hd
  | succ f ih =>
    intro n d hd
    by_cases h0 : n = 0
    · subst h0; simp [nat_digits_rev] at hd
    · have hb : (n == 0) = false := by simp [h0]
      simp only [nat_digits_rev, hb, Bool.false_eq_true, if_false,
        List.mem_cons] at hd
      rcases hd with hd | hd
      · omega
      · exact ih _ _ hd

theorem nat_digits_lt (n : Nat) : ∀ d ∈ nat_digits n, d < 10 := by
  intro d hd
  by_cases h0 : n = 0
  · subst h0; simp [nat_digits] at hd; omega
  · have hb : (n == 0) = false := by simp [h0]
    simp only [nat_digits, hb, Bool.false_eq_true, if_false,
      List.mem_reverse] at hd
    exact nat_digits_rev_lt n n d hd

theorem digits_val_nat_digits (n : Nat) : digits_val (nat_digits n) = n := by
  by_cases h0 : n = 0
  · subst h0; rfl
  · have hb : (n == 0) = false := by simp [h0]
    simp only [nat_digits, hb, Bool.false_eq_true, if_false]
    rw [digits_val, List.foldl_reverse]
    exact foldr_nat_digits_rev n n le_rfl

theorem nat_digits_ne_nil (n : Nat) : nat_digits n ≠ [] := by
  by_cases h0 : n = 0
  · subst h0; simp [nat_digits]
  · have hb : (n == 0) = false := by simp [h0]
    cases n with
    | zero => exact absurd rfl h0
    | succ m =>
      simp only [nat_digits, hb, Bool.false_eq_true, if_false, ne_eq,
        List.reverse_eq_nil_iff]
      simp [nat_digits_rev]

theorem digit_char_digit (d : Nat) (h : d < 10) :
    is_digit (digit_char d) = true ∧ char_digit (digit_char d) = d := by
  interval_cases d <;> exact ⟨rfl, rfl⟩

theorem take_digits_map :
    ∀ ds : List Nat, (∀ d ∈ ds, d < 10) →
      take_digits (ds.map digit_char) = (ds, []) := by
  intro ds
  induction ds with
  | nil => intro _; rfl
  | cons d t ih =>
    intro h
    have hd := digit_char_digit d (h d (by simp))
    have ht := ih fun x hx => h x (by simp [hx])
    simp [take_digits, hd.1, hd.2, ht]

theorem take_digits_nondigit (c : Char) (cs : List Char) (h : is_digit c = false) :
    take_digits (c :: cs) = ([], c :: cs) := by
  simp [take_digits, h]

theorem nat_chars_ne_nil (n : Nat) : nat_chars n ≠ [] := by
  intro h
  rw [nat_chars, List.map_eq_nil_iff] at h
  exact nat_digits_ne_nil n h

theorem nat_chars_head_digit (n : Nat) (c : Char) (t : List Char)
    (h : nat_chars n = c :: t) : is_digit c = true := by
  rw [nat_chars] at h
  cases hd : nat_digits n with
  | nil => exact absurd hd (nat_digits_ne_nil n)
  | cons d t' =>
    rw [hd] at h
    simp only [List.map_cons, List.cons.injEq] at h
    rw [← h.1]
    exact (digit_char_digit d (nat_digits_lt n d (by simp [hd]))).1

theorem take_digits_nat_chars (n : Nat) :
    take_digits (nat_chars n) = (nat_digits n, []) :=
  take_digits_map (nat_digits n) (nat_digits_lt n)

theorem from_chars_u8_nat_chars (n : Nat) (h : n ≤ 255) :
    from_chars_u8 (nat_chars n) = some n := by
  have ht := take_digits_nat_chars n
  have hv := digits_val_nat_digits n
  cases hd : nat_digits n with
  | nil => exact absurd hd (nat_digits_ne_nil n)
  | cons d t =>
    rw [hd] at ht hv
    simp [from_chars_u8, ht, hv, h]

theorem from_chars_int_int_chars (v : Int)
    (h1 : -(2 ^ 31) ≤ v) (h2 : v ≤ 2 ^ 31 - 1) :
    from_chars_int (int_chars v) = some v := by
  have ht := take_digits_nat_chars v.natAbs
  have hv := digits_val_nat_digits v.natAbs
  by_cases hneg : v < 0
  · rw [int_chars, if_pos hneg]
    cases hd : nat_digits v.natAbs with
    | nil => exact absurd hd (nat_digits_ne_nil v.natAbs)
    | cons d t =>
      rw [hd] at ht hv
      have hle : digits_val (d :: t) ≤ 2 ^ 31 := by rw [hv]; omega
      simp only [from_chars_int, ht, hle, if_true, if_pos hle]
      congr 1
      rw [hv]
      omega
  · rw [int_chars, if_neg hneg]
    cases hc : nat_chars v.natAbs with
    | nil => exact absurd hc (nat_chars_ne_nil v.natAbs)
    | cons c t =>
      have hdig := nat_chars_head_digit v.natAbs c t hc
      have hne : c ≠ '-' := by
        intro e
        rw [e] at hdig
        exact absurd hdig (by decide)
      rw [hc] at ht
      cases hd : nat_digits v.natAbs with
      | nil => exact absurd hd (nat_digits_ne_nil v.natAbs)
      | cons d t' =>
        rw [hd] at ht hv
        have hle : digits_val (d :: t') ≤ 2 ^ 31 - 1 := by rw [hv]; omega
        unfold from_chars_int
        split
        · next rest heq =>
          rw [List.cons.injEq] at heq
          exact absurd heq.1 hne
        · next hnm =>
          rw [ht]
          simp only [hle, if_true]
          congr 1
          rw [hv]
          omega

/-! ### Parser failure on inputs without a valid numeric prefix -/

theorem from_chars_u8_none (cs : List Char)
    (h : numeric_start .ku8 cs = false) : from_chars_u8 cs = none := by
  cases cs with
  | nil => rfl
  | cons c t =>
    have hc : is_digit c = false := by simpa [numeric_start] using h
    simp [from_chars_u8, take_digits_nondigit c t hc]

theorem from_chars_int_none (cs : List Char)
    (h : numeric_start .kint cs = false) : from_chars_int cs = none := by
  cases cs with
  | nil => rfl
  | cons c t =>
    by_cases hm : c = '-'
    · subst hm
      cases t with
      | nil => rfl
      | cons c' t' =>
        have hc : is_digit c' = false := by simpa [numeric_start] using h
        simp [from_chars_int, take_digits_nondigit c' t' hc]
    · have hc : is_digit c = false := by
        cases t with
        | nil => simpa [numeric_start, hm] using h
        | cons c' t' => simpa [numeric_start, hm] using h
      unfold from_chars_int
      split
      · next rest heq =>
        rw [List.cons.injEq] at heq
        exact absurd heq.1 hm
      · next hnm =>
        simp [take_digits_nondigit c t hc]

theorem frac_digits_nondot (c : Char) (t : List Char) (h : c ≠ '.') :
    frac_digits (c :: t) = ([], c :: t) := by
  unfold frac_digits
  split
  · next t2 heq =>
    rw [List.cons.injEq] at heq
    exact absurd heq.1 h
  · next => rfl

theorem parse_udouble_none (cs : List Char)
    (h : mant_start cs = false) : parse_udouble cs = none := by
  cases cs with
  | nil => rfl
  | cons c t =>
    by_cases hdot : c = '.'
    · subst hdot
      have h1 : take_digits ('.' :: t) = ([], '.' :: t) :=
        take_digits_nondigit '.' t (by decide)
      cases t with
      | nil => rfl
      | cons c' t' =>
        have hc : is_digit c' = false := by simpa [mant_start] using h
        simp [parse_udouble, h1, frac_digits, take_digits_nondigit c' t' hc]
    · have hc : is_digit c = false := by
        cases t with
        | nil => simpa [mant_start, hdot] using h
        | cons c' t' => simpa [mant_start, hdot] using h
      simp [parse_udouble, take_digits_nondigit c t hc, frac_digits_nondot c t hdot]

theorem parse_double_none (cs : List Char)
    (h : double_start cs = false) : parse_double cs = none := by
  rcases hs : strip_minus cs with ⟨neg, cs1⟩
  rw [double_start, hs] at h
  simp only [Bool.or_eq_false_iff] at h
  rw [parse_double, hs]
  simp [h.1.1, h.1.2, h.2, parse_udouble_none cs1 h.1.1]

/-! ### `find_if` / cursor lemmas -/

theorem find_idx_none_iff {α : Type} (key : Nat) :
    ∀ l : List (menu_option α), find_idx key l = none ↔ ∀ o ∈ l, o.key ≠ key := by
  intro l
  induction l with
  | nil => simp [find_idx]
  | cons o rest ih =>
    by_cases hk : o.key = key
    · simp [find_idx, hk]
    · have hb : (o.key == key) = false := by simp [hk]
      simp [find_idx, hb, Option.map_eq_none', ih, hk]

theorem find_idx_some_spec {α : Type} (key : Nat) :
    ∀ (l : List (menu_option α)) i, find_idx key l = some i →
      ∃ h : i < l.length,
        (l.get ⟨i, h⟩).key = key ∧
        ∀ j (hj : j < i), (l.get ⟨j, Nat.lt_trans hj h⟩).key ≠ key := by
  intro l
  induction l with
  | nil => intro i hi; simp [find_idx] at hi
  | cons o rest ih =>
    intro i hi
    by_cases hk : o.key = key
    · have hb : (o.key == key) = true := by simp [hk]
      rw [find_idx, if_pos hb] at hi
      cases hi
      exact ⟨by simp, hk, fun j hj => absurd hj (Nat.not_lt_zero j)⟩
    · have hb : (o.key == key) = false := by simp [hk]
      rw [find_idx, if_neg (by simp [hk])] at hi
      rcases Option.map_eq_some'.mp hi with ⟨i', hi', rfl⟩
      rcases ih i' hi' with ⟨h', hkey, hfirst⟩
      refine ⟨by simpa using Nat.succ_lt_succ h', by simpa using hkey, ?_⟩
      intro j hj
      cases j with
      | zero => simpa using hk
      | succ j' =>
        have hj' : j' < i' := Nat.lt_of_succ_lt_succ hj
        simpa using hfirst j' hj'

theorem find_idx_of_mem {α : Type} (key : Nat) (l : List (menu_option α))
    (h : ∃ o ∈ l, o.key = key) : ∃ i, find_idx key l = some i := by
  cases hf : find_idx key l with
  | none =>
    rcases h with ⟨o, ho, hk⟩
    exact absurd hk ((find_idx_none_iff key l).mp hf o ho)
  | some i => exact ⟨i, rfl⟩

theorem find_idx_append_fresh {α : Type} (key : Nat) (o' : menu_option α)
    (hk : o'.key = key) :
    ∀ l : List (menu_option α), (∀ o ∈ l, o.key ≠ key) →
      find_idx key (l ++ [o']) = some l.length := by
  intro l
  induction l with
  | nil => intro _; simp [find_idx, hk]
  | cons o rest ih =>
    intro h
    have hb : (o.key == key) = false := by simp [h o (by simp)]
    have ht : find_idx key (rest.append [o']) = some rest.length :=
      ih fun x hx => h x (by simp [hx])
    simp only [List.cons_append, find_idx, hb, Bool.false_eq_true, if_false, ht,
      List.length_cons]
    rfl

theorem eraseIdx_append_length {α : Type} (x : menu_option α) :
    ∀ l : List (menu_option α), (l ++ [x]).eraseIdx l.length = l := by
  intro l
  induction l with
  | nil => rfl
  | cons o rest ih => simp [List.eraseIdx, ih]

theorem options_beq_iff {α : Type} :
    ∀ l1 l2 : List (menu_option α),
      (l1 == l2) = true ↔ List.Forall₂ (fun x y => x.key = y.key) l1 l2 := by
  intro l1
  induction l1 with
  | nil =>
    intro l2
    cases l2 with
    | nil => simp
    | cons y t =>
      rw [show (([] : List (menu_option α)) == y :: t) = false from rfl]
      simp
  | cons x t1 ih =>
    intro l2
    cases l2 with
    | nil =>
      rw [show ((x :: t1 : List (menu_option α)) == []) = false from rfl]
      simp
    | cons y t2 =>
      have hx : (x == y) = (x.key == y.key) := rfl
      constructor
      · intro h
        have h' : (x == y && (t1 == t2 : Bool)) = true := h
        rw [Bool.and_eq_true] at h'
        refine List.Forall₂.cons ?_ ((ih t2).mp h'.2)
        rw [hx] at h'
        simpa using h'.1
      · intro h
        cases h with
        | cons hxy ht =>
          show (x == y && (t1 == t2 : Bool)) = true
          rw [Bool.and_eq_true, hx]
          exact ⟨by simpa using hxy, (ih t2).mpr ht⟩

/-! ### Typed access lemmas -/

theorem to_typed_ok_of_kind (s : config_item) (k : vkind) (h : s.value.kind = k) :
    ∃ v : carrier k, s.value = value_t.inj k v ∧ s.to_typed k = Except.ok v := by
  obtain ⟨n, val⟩ := s
  cases val <;> cases k <;>
    first
      | exact ⟨_, rfl, rfl⟩
      | exact absurd h (by simp [value_t.kind])

theorem to_typed_error_of_kind_ne (s : config_item) (k : vkind)
    (h : s.value.kind ≠ k) :
    s.to_typed k = Except.error access_error.bad_variant_access := by
  obtain ⟨n, val⟩ := s
  cases val <;> cases k <;>
    first
      | rfl
      | exact absurd rfl h

theorem to_typed_eq_operator_value (s : config_item) (k : vkind)
    (h : s.value.kind = k) :
    s.to_typed k = Except.ok (s.operator_value k) := by
  obtain ⟨n, val⟩ := s
  cases val <;> cases k <;>
    first
      | rfl
      | exact absurd h (by simp [value_t.kind])

/-! ### Claims -/

/-- C2: for every Setting whose active kind is numeric (`uint8`, `int` or
`double`) and every input text with no valid numeric prefix, the textual
`set` leaves the stored value (and the whole item) unchanged; the member is
total (`noexcept`, returns `void`), so no error is reported. -/
theorem numeric_set_silent_no_op (s : config_item) (t : String)
    (hk : s.value.kind = vkind.ku8 ∨ s.value.kind = vkind.kint ∨
      s.value.kind = vkind.kdouble)
    (h : numeric_start s.value.kind t.data = false) :
    s.set_text t = s := by
  obtain ⟨n, val⟩ := s
  cases val with
  | vbool b => simp [value_t.kind] at hk
  | vu8 m =>
    have hp := from_chars_u8_none t.data (by simpa [value_t.kind] using h)
    simp [config_item.set_text, hp]
  | vint v =>
    have hp := from_chars_int_none t.data (by simpa [value_t.kind] using h)
    simp [config_item.set_text, hp]
  | vdouble d =>
    have hp := parse_double_none t.data (by simpa [value_t.kind, numeric_start] using h)
    simp [config_item.set_text, hp]

/-- C2 witness: a Setting holding integer 800 still holds 800 after
`set("abc")`. -/
theorem numeric_set_silent_no_op_w :
    config_item.set_text "abc" ⟨"screen width", value_t.vint 800⟩
      = ⟨"screen width", value_t.vint 800⟩ :=
  numeric_set_silent_no_op ⟨"screen width", value_t.vint 800⟩ "abc"
    (Or.inr (Or.inl rfl)) (by decide)

/-- C3: for every Setting whose active kind is boolean, the textual `set`
stores true exactly when the text equals "1" or "true" and false for every
other input, leaving the name unchanged. -/
theorem bool_set_literals (s : config_item) (t : String)
    (hk : s.value.kind = vkind.kbool) :
    s.set_text t = ⟨s.name, value_t.vbool (t == "1" || t == "true")⟩ := by
  obtain ⟨n, val⟩ := s
  cases val with
  | vbool b => simp [config_item.set_text]
  | vu8 m => simp [value_t.kind] at hk
  | vint v => simp [value_t.kind] at hk
  | vdouble d => simp [value_t.kind] at hk

/-- C3 witness: `set("true")` and `set("1")` store true; `set("0")` and
`set("yes")` store false. -/
theorem bool_set_literals_w :
    config_item.set_text "true" ⟨"serial enabled", value_t.vbool false⟩
        = ⟨"serial enabled", value_t.vbool true⟩
    ∧ config_item.set_text "1" ⟨"serial enabled", value_t.vbool false⟩
        = ⟨"serial enabled", value_t.vbool true⟩
    ∧ config_item.set_text "0" ⟨"serial enabled", value_t.vbool true⟩
        = ⟨"serial enabled", value_t.vbool false⟩
    ∧ config_item.set_text "yes" ⟨"serial enabled", value_t.vbool true⟩
        = ⟨"serial enabled", value_t.vbool false⟩ :=
  ⟨bool_set_literals ⟨"serial enabled", value_t.vbool false⟩ "true" rfl,
   bool_set_literals ⟨"serial enabled", value_t.vbool false⟩ "1" rfl,
   bool_set_literals ⟨"serial enabled", value_t.vbool true⟩ "0" rfl,
   bool_set_literals ⟨"serial enabled", value_t.vbool true⟩ "yes" rfl⟩

/-- C4: for every Setting whose active kind is boolean or integer (with the
stored machine value in range), applying the textual `set` to the text
produced by `to<std::string>()` reproduces the original item exactly. -/
theorem set_to_string_id (s : config_item) (hwf : wf_value s.value)
    (hk : s.value.kind = vkind.kbool ∨ s.value.kind = vkind.ku8 ∨
      s.value.kind = vkind.kint) :
    s.set_text s.to_string = s := by
  obtain ⟨n, val⟩ := s
  cases val with
  | vbool b => cases b <;> rfl
  | vu8 m =>
    have hm : m ≤ 255 := hwf
    have hp := from_chars_u8_nat_chars m hm
    simp [config_item.set_text, config_item.to_string, hp]
  | vint v =>
    obtain ⟨h1, h2⟩ : -(2 ^ 31) ≤ v ∧ v ≤ 2 ^ 31 - 1 := hwf
    have hp := from_chars_int_int_chars v h1 h2
    simp [config_item.set_text, config_item.to_string, hp]
  | vdouble d => simp [value_t.kind] at hk

/-- C4 witness: round trip at boolean true and at integer 800. -/
theorem set_to_string_id_w :
    config_item.set_text
        (config_item.to_string ⟨"serial enabled", value_t.vbool true⟩)
        ⟨"serial enabled", value_t.vbool true⟩
      = ⟨"serial enabled", value_t.vbool true⟩
    ∧ config_item.set_text
        (config_item.to_string ⟨"screen width", value_t.vint 800⟩)
        ⟨"screen width", value_t.vint 800⟩
      = ⟨"screen width", value_t.vint 800⟩ :=
  ⟨set_to_string_id ⟨"serial enabled", value_t.vbool true⟩ trivial (Or.inl rfl),
   set_to_string_id ⟨"screen width", value_t.vint 800⟩ (by constructor <;> decide)
     (Or.inr (Or.inr rfl))⟩

/-- C5: `menu_option::apply(value)` first calls `set(value)` on the bound
Setting; only afterwards, and only if a callback is present, is the callback
invoked (with no arguments), observing the newly committed value; with no
callback nothing is invoked after `set`. -/
theorem apply_set_before_action {α : Type} (o : menu_option α) (v : set_arg) :
    ((o.apply v).1.cfgitem = o.cfgitem.set v)
    ∧ (o.action = none → (o.apply v).2 = [apply_event.set_called v])
    ∧ (∀ a, o.action = some a →
        (o.apply v).2 = [apply_event.set_called v,
          apply_event.action_invoked a (o.cfgitem.set v)]) := by
  obtain ⟨act, item, key⟩ := o
  cases act <;> simp [menu_option.apply]

/-- C5 witness: applying 1024 to a binding with a callback commits the value
first and then invokes the callback on the committed state. -/
theorem apply_set_before_action_w :
    ((menu_option.apply (set_arg.val (value_t.vint 1024))
        ⟨some (), ⟨"screen width", value_t.vint 800⟩, 119⟩).2
      = [apply_event.set_called (set_arg.val (value_t.vint 1024)),
         apply_event.action_invoked () ⟨"screen width", value_t.vint 1024⟩]) :=
  (apply_set_before_action ⟨some (), ⟨"screen width", value_t.vint 800⟩, 119⟩
      (set_arg.val (value_t.vint 1024))).2.2 () rfl

/-- C9: for every Setting and every declared kind `K`, the checked accessor
`to<K>()` returns the stored value when `K` is the active kind and fails
loudly (throws `std::bad_variant_access`, modelled as an explicit error
result) when it is not — it never coerces. -/
theorem to_typed_type_mismatch (s : config_item) (k : vkind) :
    (s.value.kind = k →
      ∃ v : carrier k, s.value = value_t.inj k v ∧ s.to_typed k = Except.ok v)
    ∧ (s.value.kind ≠ k →
      s.to_typed k = Except.error access_error.bad_variant_access) :=
  ⟨to_typed_ok_of_kind s k, to_typed_error_of_kind_ne s k⟩

/-- C9 witness: on a Setting holding integer 800, `to<int>()` returns 800
and `to<bool>()` fails with the type-mismatch error. -/
theorem to_typed_type_mismatch_w :
    config_item.to_typed vkind.kint ⟨"screen width", value_t.vint 800⟩
        = Except.ok (800 : Int)
    ∧ config_item.to_typed vkind.kbool ⟨"screen width", value_t.vint 800⟩
        = Except.error access_error.bad_variant_access := by
  refine ⟨?_, ?_⟩
  · obtain ⟨v, hv, hok⟩ :=
      (to_typed_type_mismatch ⟨"screen width", value_t.vint 800⟩ vkind.kint).1 rfl
    cases hv
    exact hok
  · exact (to_typed_type_mismatch ⟨"screen width", value_t.vint 800⟩ vkind.kbool).2
      (by decide)

/-- C10: the implicit conversion operator never fails, whichever kind is
active: it totally converts the active value (`static_cast` semantics) to
the requested kind, agreeing with `to<K>()` when the kinds match and still
producing a value (where `to<K>()` errors) when they do not. -/
theorem operator_value_unchecked (s : config_item) (t : vkind) :
    (∃ v : carrier t, s.operator_value t = v)
    ∧ (s.value.kind = t → s.to_typed t = Except.ok (s.operator_value t))
    ∧ (s.value.kind ≠ t →
        s.to_typed t = Except.error access_error.bad_variant_access) :=
  ⟨⟨s.operator_value t, rfl⟩,
   to_typed_eq_operator_value s t,
   to_typed_error_of_kind_ne s t⟩

/-- C10 witness: on a Setting holding integer 800, the conversion operator
agrees with `to<int>()` at the active kind, and at kind bool — where the
checked accessor errors — it still silently coerces (800 ≠ 0 gives true). -/
theorem operator_value_unchecked_w :
    config_item.to_typed vkind.kint ⟨"screen width", value_t.vint 800⟩
        = Except.ok (config_item.operator_value vkind.kint
            ⟨"screen width", value_t.vint 800⟩)
    ∧ config_item.to_typed vkind.kbool ⟨"screen width", value_t.vint 800⟩
        = Except.error access_error.bad_variant_access
    ∧ config_item.operator_value vkind.kbool ⟨"screen width", value_t.vint 800⟩
        = true :=
  ⟨(operator_value_unchecked ⟨"screen width", value_t.vint 800⟩ vkind.kint).2.1 rfl,
   (operator_value_unchecked ⟨"screen width", value_t.vint 800⟩ vkind.kbool).2.2
     (by decide),
   rfl⟩

/-- C1: `menu::select(k)` scans the bindings in insertion order for the
first binding whose key equals `k`; when one exists it moves the cursor to
that binding and returns true; otherwise it returns false and leaves the
cursor at the end-of-sequence sentinel, which is none of the valid binding
positions. -/
theorem select_first_match {α : Type} (m : menu α) (k : Nat) :
    ((∃ o ∈ m.options, o.key = k) →
      (m.select k).2 = true ∧
      ∃ i, (m.select k).1.cursor = cursor_t.pos i ∧
        ∃ h : i < m.options.length,
          (m.options.get ⟨i, h⟩).key = k ∧
          ∀ j (hj : j < i), (m.options.get ⟨j, Nat.lt_trans hj h⟩).key ≠ k)
    ∧ ((∀ o ∈ m.options, o.key ≠ k) →
      (m.select k).2 = false ∧ (m.select k).1.cursor = cursor_t.at_end ∧
        ∀ i, (m.select k).1.cursor ≠ cursor_t.pos i) := by
  constructor
  · intro hex
    rcases find_idx_of_mem k m.options hex with ⟨i, hf⟩
    rcases find_idx_some_spec k m.options i hf with ⟨h, hkey, hfirst⟩
    rw [menu.select, hf]
    exact ⟨rfl, i, rfl, h, hkey, hfirst⟩
  · intro hnone
    have hf : find_idx k m.options = none := (find_idx_none_iff k m.options).mpr hnone
    rw [menu.select, hf]
    exact ⟨rfl, rfl, fun i => by simp⟩

/-- C1 witness: in a two-binding menu, selecting key 119 succeeds with the
cursor on the first binding, and selecting the absent key 120 fails with the
cursor at the end sentinel. -/
theorem select_first_match_w :
    ((⟨[⟨none, ⟨"screen width", value_t.vint 800⟩, 119⟩,
        ⟨none, ⟨"screen height", value_t.vint 600⟩, 104⟩], 2,
        cursor_t.invalid⟩ : menu Unit).select 119).2 = true
    ∧ ((⟨[⟨none, ⟨"screen width", value_t.vint 800⟩, 119⟩,
        ⟨none, ⟨"screen height", value_t.vint 600⟩, 104⟩], 2,
        cursor_t.invalid⟩ : menu Unit).select 120).2 = false
    ∧ ((⟨[⟨none, ⟨"screen width", value_t.vint 800⟩, 119⟩,
        ⟨none, ⟨"screen height", value_t.vint 600⟩, 104⟩], 2,
        cursor_t.invalid⟩ : menu Unit).select 120).1.cursor = cursor_t.at_end :=
  ⟨((select_first_match
      (⟨[⟨none, ⟨"screen width", value_t.vint 800⟩, 119⟩,
         ⟨none, ⟨"screen height", value_t.vint 600⟩, 104⟩], 2,
         cursor_t.invalid⟩ : menu Unit) 119).1 (by decide)).1,
   ((select_first_match
      (⟨[⟨none, ⟨"screen width", value_t.vint 800⟩, 119⟩,
         ⟨none, ⟨"screen height", value_t.vint 600⟩, 104⟩], 2,
         cursor_t.invalid⟩ : menu Unit) 120).2 (by simp)).1,
   ((select_first_match
      (⟨[⟨none, ⟨"screen width", value_t.vint 800⟩, 119⟩,
         ⟨none, ⟨"screen height", value_t.vint 600⟩, 104⟩], 2,
         cursor_t.invalid⟩ : menu Unit) 120).2 (by simp)).2.1⟩

/-- C6: with `remove()` taken at its documented intent (erase the binding at
the selection cursor; the source line passes the member function name
`selection` instead of the iterator `selection_`, which does not compile
when instantiated), adding a fresh key, successfully selecting it and
removing leaves the binding sequence — and hence the count — exactly as
before the add. -/
theorem add_select_remove_count {α : Type} (m : menu α) (k : Nat)
    (item : config_item) (act : Option α)
    (hfresh : ∀ o ∈ m.options, o.key ≠ k) :
    ((m.add k item act).select k).2 = true
    ∧ (((m.add k item act).select k).1.remove).options = m.options
    ∧ (((m.add k item act).select k).1.remove).options.length
        = m.options.length := by
  have hopt : (m.add k item act).options = m.options ++ [⟨act, item, k⟩] := rfl
  have hf : find_idx k (m.add k item act).options = some m.options.length := by
    rw [hopt]
    exact find_idx_append_fresh k ⟨act, item, k⟩ rfl m.options hfresh
  have hsel : (m.add k item act).select k
      = ({ m.add k item act with cursor := cursor_t.pos m.options.length }, true) := by
    rw [menu.select, hf]
  have hrm : (((m.add k item act).select k).1.remove).options = m.options := by
    rw [hsel]
    show ((m.add k item act).options.eraseIdx m.options.length) = m.options
    rw [hopt]
    exact eraseIdx_append_length ⟨act, item, k⟩ m.options
  exact ⟨by rw [hsel], hrm, by rw [hrm]⟩

/-- C6 witness: adding key 119 to an empty menu, selecting it and removing
restores the empty binding sequence. -/
theorem add_select_remove_count_w :
    (((menu.new : menu Unit).add 119 ⟨"screen width", value_t.vint 800⟩ none).select
        119).2 = true
    ∧ ((((menu.new : menu Unit).add 119 ⟨"screen width", value_t.vint 800⟩
        none).select 119).1.remove).options = [] :=
  ⟨(add_select_remove_count (menu.new : menu Unit) 119
      ⟨"screen width", value_t.vint 800⟩ none (by simp [menu.new])).1,
   (add_select_remove_count (menu.new : menu Unit) 119
      ⟨"screen width", value_t.vint 800⟩ none (by simp [menu.new])).2.1⟩

/-- C7: every `add` performed when the vector is at capacity (so the storage
grows and reallocates) and every `remove` (from a valid selection) leave the
selection cursor in a state that is not a readable position — the spec's
`Unselected` state; the cursor is therefore readable only between a
successful `select` and the next such structural mutation. -/
theorem growth_add_remove_unselect {α : Type} (m : menu α) (k : Nat)
    (item : config_item) (act : Option α) (i : Nat) :
    (m.options.length = m.cap → (m.add k item act).cursor = cursor_t.invalid)
    ∧ (m.cursor = cursor_t.pos i → (m.remove).cursor = cursor_t.invalid) := by
  constructor
  · intro hg
    have hb : (m.options.length == m.cap) = true := by simp [hg]
    show (match m.cursor with
      | cursor_t.pos j =>
        if (m.options.length == m.cap) = true then cursor_t.invalid else cursor_t.pos j
      | cursor_t.at_end => cursor_t.invalid
      | cursor_t.invalid => cursor_t.invalid) = cursor_t.invalid
    cases m.cursor with
    | pos j => simp [hb]
    | at_end => rfl
    | invalid => rfl
  · intro hc
    rw [menu.remove, hc]

/-- C7 witness: on a full one-binding menu with a valid selection, an `add`
invalidates the cursor, and so does a `remove`. -/
theorem growth_add_remove_unselect_w :
    ((⟨[⟨none, ⟨"screen width", value_t.vint 800⟩, 119⟩], 1,
        cursor_t.pos 0⟩ : menu Unit).add 104 ⟨"screen height", value_t.vint 600⟩
        none).cursor = cursor_t.invalid
    ∧ ((⟨[⟨none, ⟨"screen width", value_t.vint 800⟩, 119⟩], 1,
        cursor_t.pos 0⟩ : menu Unit).remove).cursor = cursor_t.invalid :=
  ⟨(growth_add_remove_unselect
      (⟨[⟨none, ⟨"screen width", value_t.vint 800⟩, 119⟩], 1,
        cursor_t.pos 0⟩ : menu Unit) 104 ⟨"screen height", value_t.vint 600⟩
      none 0).1 rfl,
   (growth_add_remove_unselect
      (⟨[⟨none, ⟨"screen width", value_t.vint 800⟩, 119⟩], 1,
        cursor_t.pos 0⟩ : menu Unit) 104 ⟨"screen height", value_t.vint 600⟩
      none 0).2 rfl⟩

/-- C8 counterexample: two menus whose ordered binding sequences are
member-wise equal but whose selection cursors differ compare unequal under
the source's defaulted `operator==` — the cursor does participate in menu
equality, so "equal exactly when the binding sequences are member-wise
equal" fails at this input. -/
theorem menu_beq_ignores_cursor_cex :
    List.Forall₂ (fun x y : menu_option Unit => x.key = y.key)
      (⟨[⟨none, ⟨"screen width", value_t.vint 800⟩, 97⟩], 1,
        cursor_t.pos 0⟩ : menu Unit).options
      (⟨[⟨none, ⟨"screen width", value_t.vint 800⟩, 97⟩], 1,
        cursor_t.invalid⟩ : menu Unit).options
    ∧ menu.beq
      (⟨[⟨none, ⟨"screen width", value_t.vint 800⟩, 97⟩], 1,
        cursor_t.pos 0⟩ : menu Unit)
      (⟨[⟨none, ⟨"screen width", value_t.vint 800⟩, 97⟩], 1,
        cursor_t.invalid⟩ : menu Unit) = false :=
  ⟨List.Forall₂.cons rfl List.Forall₂.nil, rfl⟩

/-- C8 amended: two menus are equal under the defaulted `operator==` exactly
when their ordered binding sequences are member-wise equal (bindings compare
by key) AND their selection cursors are equal — the cursor is part of the
defaulted member-wise comparison. -/
theorem menu_beq_options_and_cursor {α : Type} (x y : menu α) :
    menu.beq x y = true ↔
      (List.Forall₂ (fun a b : menu_option α => a.key = b.key) x.options y.options
        ∧ x.cursor = y.cursor) := by
  rw [menu.beq, Bool.and_eq_true, options_beq_iff, decide_eq_true_eq]

/-- C8 amended witness: two menus with distinct bound settings but equal
keys and equal cursors compare equal. -/
theorem menu_beq_options_and_cursor_w :
    menu.beq
      (⟨[⟨none, ⟨"screen width", value_t.vint 800⟩, 97⟩], 1,
        cursor_t.pos 0⟩ : menu Unit)
      (⟨[⟨none, ⟨"frame width", value_t.vint 640⟩, 97⟩], 5,
        cursor_t.pos 0⟩ : menu Unit) = true :=
  (menu_beq_options_and_cursor
    (⟨[⟨none, ⟨"screen width", value_t.vint 800⟩, 97⟩], 1,
      cursor_t.pos 0⟩ : menu Unit)
    (⟨[⟨none, ⟨"frame width", value_t.vint 640⟩, 97⟩], 5,
      cursor_t.pos 0⟩ : menu Unit)).mpr
    ⟨List.Forall₂.cons rfl List.Forall₂.nil, rfl⟩
